import Mathlib

/-!
Shallow embedding of the revision-spec resolution delegate
(`git-repository/src/rev_spec/parse/delegate.rs`) and proofs about the
claims of the specification.

Object ids are modelled as natural numbers; candidate sets as `Finset Nat`
(the source uses `HashSet<ObjectId>`; where the source iterates a hash set
we iterate in ascending id order, which the spec requires to be the
deterministic order for diagnostics).  Rust panics (`todo!`,
`unreachable!`, `expect`, `assert!`) are modelled explicitly by a
`PanicMsg` tag so that panicking control paths are distinguishable from
ordinary failure (`Option::None`) and from error values.
-/

namespace RevSpecParse

/-- Abbreviation for object identifiers (`git_hash::ObjectId`). -/
abbrev ObjectId := Nat

/-- Hex prefixes (`git_hash::Prefix`) are modelled by their hex text; the
source uses `prefix.hex_len()` (here `String.length`) and
`prefix.to_string()` (here the string itself). -/
abbrev Pfx := String

/-- Full hex length of an object id (`kind().len_in_hex()`, SHA-1: 40). -/
def fullHexLen : Nat := 40

/-- Object kinds (`git_object::Kind`). -/
inductive ObjKind where
  | commit
  | tree
  | blob
  | tag
deriving DecidableEq

/-- Structural kind of a spec (`git_revision::spec::Kind`); the default
(`unwrap_or_default`) is `IncludeReachable`. -/
inductive SpecKind where
  | includeReachable
  | excludeReachable
  | rangeBetween
  | reachableToMergeBase
  | includeReachableFromParents
  | excludeReachableFromParents
deriving DecidableEq

/-- Target of a reference: direct object id or symbolic name. -/
inductive RefTarget where
  | direct (id : ObjectId)
  | symbolic (name : String)
deriving DecidableEq

/-- A reference (`git_ref::Reference`): name plus current target. -/
structure Reference where
  name : String
  target : RefTarget
deriving DecidableEq

/-- The ref-vs-object preference policy (`RefsHint`). -/
inductive RefsHint where
  | preferObjectOnFullLengthHexShaUseRefOtherwise
  | preferObject
  | preferRef
  | fail
deriving DecidableEq

/-- Default object kind hints (`ObjectKindHint`). -/
inductive ObjectKindHint where
  | treeish
  | committish
  | tree
  | commit
  | blob
deriving DecidableEq

/-- Resolution options (`rev_spec::parse::Options`). -/
structure Options where
  refsHint : RefsHint
  objectKindHint : Option ObjectKindHint
deriving DecidableEq

/-- Error diagnostics (`rev_spec::parse::Error`); only the variants the
delegate produces are modelled.  `ambiguousIds` carries the candidate ids
in the deterministic (sorted) order required of `Error::ambiguous`. -/
inductive Error where
  | pfxNotFound (pfx : Pfx)
  | ambiguousIds (candidates : List ObjectId) (pfx : Pfx)
  | ambiguousRefAndObject (pfx : Pfx) (reference : Reference)
  | objectKind (actual expected : ObjKind) (oid : ObjectId)
  | pathNotFound (path : List String) (object : ObjectId) (tree : ObjectId)
  | refLookupFailure (name : String)
  | odbLookupFailure
  | notFound (oid : ObjectId)
  | peelImpossible (oid : ObjectId) (expected : ObjKind)
  | unsupportedFeature (which : String)
deriving DecidableEq

/-- Enumerate a candidate set in ascending id order (the deterministic
iteration order required of diagnostics); insertion sort is used so the
enumeration reduces inside the kernel. -/
def finSort (c : Finset ObjectId) : List ObjectId :=
  Quot.liftOn c.val (fun l => l.insertionSort (· ≤ ·)) fun a b h =>
    List.eq_of_perm_of_sorted
      ((List.perm_insertionSort _ a).trans (h.trans (List.perm_insertionSort _ b).symm))
      (List.sorted_insertionSort _ a) (List.sorted_insertionSort _ b)

/-- Modelled from the spec: `Error::ambiguous(candidates, prefix, repo)`
formats the candidate set in a stable, deterministic order (sorted by
object id). -/
def Error.mkAmbiguous (c : Finset ObjectId) (p : Pfx) : Error :=
  Error.ambiguousIds (finSort c) p

/-- Equality on `Except` results is decidable. -/
def exceptDecEq {ε α : Type} [DecidableEq ε] [DecidableEq α] :
    DecidableEq (Except ε α)
  | .ok a, .ok b =>
    if h : a = b then .isTrue (by rw [h]) else .isFalse fun he => h (by injection he)
  | .ok _, .error _ => .isFalse fun he => Except.noConfusion he
  | .error _, .ok _ => .isFalse fun he => Except.noConfusion he
  | .error a, .error b =>
    if h : a = b then .isTrue (by rw [h]) else .isFalse fun he => h (by injection he)

instance {ε α : Type} [DecidableEq ε] [DecidableEq α] : DecidableEq (Except ε α) :=
  exceptDecEq

/-- Tags identifying the distinct panic sites of the source (`assert!`,
`expect`, `unreachable!`, `todo!`). -/
inductive PanicMsg where
  | assertRefTwice
  | assertPfxTwice
  | expectAtLeastOne
  | expectPfxSet
  | expectSetByParser
  | unreachableNoCandidate
  | expectTree
  | todoUnimplemented
deriving DecidableEq

/-- A value or a Rust panic. -/
inductive PanicOr (α : Type) where
  | panic (m : PanicMsg)
  | val (a : α)
deriving DecidableEq

/-- Content of an object as far as the resolver observes it. -/
inductive Object where
  | commit (tree : ObjectId)
  | tree (entries : List (String × ObjectId))
  | blob
  | tag (target : ObjectId)
deriving DecidableEq

/-- The kind exposed by an object. -/
def Object.kind : Object → ObjKind
  | .commit _ => .commit
  | .tree _ => .tree
  | .blob => .blob
  | .tag _ => .tag

/-- Result of `odb.lookup_prefix`: failure, no match, or the (per the
store contract non-empty) candidate set written into the out-parameter. -/
inductive LookupRes where
  | err
  | notFound
  | found (candidates : Finset ObjectId)
deriving DecidableEq

/-- The external collaborators (§6): reference store, object store. -/
structure Repo where
  refsFind : String → Option Reference
  lookupPfx : Pfx → LookupRes
  findObject : ObjectId → Option Object

/-- Store contract (§6): a successful prefix lookup yields one or more
candidate ids. -/
def RepoWF (repo : Repo) : Prop :=
  ∀ p c, repo.lookupPfx p = LookupRes.found c → c.Nonempty

/-- Per-endpoint state of the delegate (two slots). -/
structure DState where
  refs : Option Reference × Option Reference
  objs : Option (Finset ObjectId) × Option (Finset ObjectId)
  ambiguousObjects : Option (Finset ObjectId) × Option (Finset ObjectId)
  idx : Nat
  kind : Option SpecKind
  err : List Error
  pfxs : Option Pfx × Option Pfx
  lastCallWasDisambiguatePfx : Bool × Bool
  opts : Options
deriving DecidableEq

/-- Slot access for the fixed two-element arrays (`self.refs[self.idx]`). -/
def nth2 {α : Type} (p : α × α) : Nat → α
  | 0 => p.1
  | _ + 1 => p.2

/-- Slot update for the fixed two-element arrays. -/
def set2 {α : Type} (p : α × α) : Nat → α → α × α
  | 0, a => (a, p.2)
  | _ + 1, a => (p.1, a)

/-- `Delegate::new`. -/
def initDelegate (opts : Options) : DState :=
  { refs := (none, none)
    objs := (none, none)
    ambiguousObjects := (none, none)
    idx := 0
    kind := none
    err := []
    pfxs := (none, none)
    lastCallWasDisambiguatePfx := (false, false)
    opts := opts }

/-- Result of a delegate callback: success (`Some(())`), failure
(`None`), or a panic. -/
inductive StepRes where
  | ok (s : DState)
  | fail (s : DState)
  | panic (m : PanicMsg)
deriving DecidableEq

/-- Fuel for the chain-following helpers; tag/symref chains in a concrete
store are finite, the fuel only serves as a termination measure. -/
def peelSteps : Nat := 32

/-- Modelled from the spec: `Object::peel_to_kind` (object store
capability, §6) dereferences annotated tags (and commit → tree where
applicable) until the requested kind is reached or peeling is
impossible; composed with the initial `find_object` of the source
helper `peel`. -/
def peelToKindFuel (repo : Repo) : Nat → ObjectId → ObjKind → Except Error ObjectId
  | 0, oid, k => .error (.peelImpossible oid k)
  | fuel + 1, oid, k =>
    match repo.findObject oid with
    | none => .error (.notFound oid)
    | some o =>
      if o.kind = k then .ok oid
      else
        match o with
        | .tag t => peelToKindFuel repo fuel t k
        | .commit tr =>
          if k = ObjKind.tree then peelToKindFuel repo fuel tr k
          else .error (.objectKind o.kind k oid)
        | _ => .error (.objectKind o.kind k oid)

/-- The free helper `peel(repo, obj, kind)`: `find_object` then
`peel_to_kind`. -/
def peel (repo : Repo) (obj : ObjectId) (k : ObjKind) : Except Error ObjectId :=
  peelToKindFuel repo peelSteps obj k

/-- The free helper `require_object_kind(repo, obj, kind)`. -/
def require_object_kind (repo : Repo) (obj : ObjectId) (k : ObjKind) : Except Error Unit :=
  match repo.findObject obj with
  | none => .error (.notFound obj)
  | some o => if o.kind = k then .ok () else .error (.objectKind o.kind k obj)

/-- Modelled from the spec: peeling annotated-tag layers of a direct
target to the concrete id (part of `peel_to_id_in_place`, §6); a missing
object is a store error, surfaced as `none`. -/
def peelTagsFuel (repo : Repo) : Nat → ObjectId → Option ObjectId
  | 0, _ => none
  | fuel + 1, id =>
    match repo.findObject id with
    | none => none
    | some (.tag t) => peelTagsFuel repo fuel t
    | some _ => some id

/-- Modelled from the spec: `Reference::peel_to_id_in_place` (§6) follows
symbolic indirection to a direct target and then peels annotated tags to
the concrete id; `none` models its error return. -/
def refPeelToId (repo : Repo) : Nat → Reference → Option ObjectId
  | 0, _ => none
  | fuel + 1, r =>
    match r.target with
    | .direct id => peelTagsFuel repo fuel id
    | .symbolic name =>
      match repo.refsFind name with
      | some r2 => refPeelToId repo fuel r2
      | none => none

/-- The expression `ref_.target.try_id() ... .or_else(|| ...peel_to_id_in_place())`
of `follow_refs_to_objects_if_needed`. -/
def refTargetId (repo : Repo) (r : Reference) : Option ObjectId :=
  match r.target with
  | .direct id => some id
  | .symbolic _ => refPeelToId repo peelSteps r

/-- One slot of `follow_refs_to_objects_if_needed`: a resolved reference
with no candidate set yet is promoted to a one-element candidate set when
its concrete target id can be determined. -/
def followRefsSlot (repo : Repo) : Option Reference → Option (Finset ObjectId) →
    Option (Finset ObjectId)
  | some r, none =>
    match refTargetId repo r with
    | some id => some (insert id ∅)
    | none => none
  | _, o => o

/-- `follow_refs_to_objects_if_needed` (always returns `Some(())`). -/
def follow_refs_to_objects_if_needed (repo : Repo) (s : DState) : DState :=
  { s with objs := (followRefsSlot repo s.refs.1 s.objs.1,
                    followRefsSlot repo s.refs.2 s.objs.2) }

/-- `unset_disambiguate_call`. -/
def unset_disambiguate_call (s : DState) : DState :=
  { s with lastCallWasDisambiguatePfx := set2 s.lastCallWasDisambiguatePfx s.idx false }

/-- `kind_implies_committish`. -/
def kind_implies_committish (s : DState) : Bool :=
  s.kind.getD SpecKind.includeReachable != SpecKind.includeReachable

/-- The per-candidate error list computed by
`disambiguate_objects_by_fallback_hint` for a given hint (the two inner
match arms of the source), iterating candidates in ascending id order. -/
def hintErrors (repo : Repo) (h : ObjectKindHint) (c : Finset ObjectId) :
    List (ObjectId × Error) :=
  match h with
  | .treeish | .committish =>
    let k := if h = ObjectKindHint.treeish then ObjKind.tree else ObjKind.commit
    (finSort c).filterMap fun o =>
      match peel repo o k with
      | .error e => some (o, e)
      | .ok _ => none
  | .tree | .commit | .blob =>
    let k := match h with
      | .tree => ObjKind.tree
      | .commit => ObjKind.commit
      | _ => ObjKind.blob
    (finSort c).filterMap fun o =>
      match require_object_kind repo o k with
      | .error e => some (o, e)
      | .ok _ => none

/-- Erase the first components of a failure list from a candidate set
(the `objs.remove(&obj)` loop). -/
def eraseAll (c : Finset ObjectId) (l : List ObjectId) : Finset ObjectId :=
  l.foldl (fun acc o => acc.erase o) c

/-- `disambiguate_objects_by_fallback_hint`: applies only when the last
call on the current slot was a bare prefix disambiguation; if every
candidate fails the hint, all failures become diagnostics and the set is
left untouched, otherwise the failing candidates are removed and their
diagnostics recorded. -/
def disambiguate_objects_by_fallback_hint (repo : Repo) (s : DState)
    (hint : Option ObjectKindHint) : DState :=
  if nth2 s.lastCallWasDisambiguatePfx s.idx then
    let s := unset_disambiguate_call s
    match nth2 s.objs s.idx with
    | none => s
    | some c =>
      match hint with
      | none => s
      | some h =>
        let errors := hintErrors repo h c
        if errors.length = c.card then
          { s with err := s.err ++ errors.map Prod.snd }
        else
          { s with objs := set2 s.objs s.idx (some (eraseAll c (errors.map Prod.fst)))
                   err := s.err ++ errors.map Prod.snd }
  else s

/-- `done`: run ref-to-object promotion, then the fallback kind
disambiguation with the strongest available hint. -/
def done (repo : Repo) (s : DState) : DState :=
  let s := follow_refs_to_objects_if_needed repo s
  disambiguate_objects_by_fallback_hint repo s
    (if kind_implies_committish s then some ObjectKindHint.committish
     else s.opts.objectKindHint)

/-- `find_ref` (resolve-by-name callback). -/
def find_ref (repo : Repo) (s : DState) (name : String) : StepRes :=
  let s := unset_disambiguate_call s
  if s.err ≠ [] ∧ (nth2 s.refs s.idx).isSome then .fail s
  else
    match repo.refsFind name with
    | some r =>
      if (nth2 s.refs s.idx).isSome then .panic .assertRefTwice
      else .ok { s with refs := set2 s.refs s.idx (some r) }
    | none => .fail { s with err := s.err ++ [.refLookupFailure name] }

/-- The state after `disambiguate_prefix` stores the candidate set and
records the prefix producing it. -/
def storeCandidates (s : DState) (c : Finset ObjectId) : DState :=
  { s with ambiguousObjects := set2 s.ambiguousObjects s.idx (some c)
           objs := set2 s.objs s.idx (some c) }

/-- The shared `PreferRef | PreferObjectOnFullLengthHexShaUseRefOtherwise
| Fail` match arm of `disambiguate_prefix`: attempt to resolve a
reference literally named like the prefix. -/
def refLookupArm (repo : Repo) (s : DState) (p : Pfx) (candidates : Finset ObjectId) :
    StepRes :=
  match repo.refsFind p with
  | some r =>
    if (nth2 s.refs s.idx).isSome then .panic .assertRefTwice
    else if s.opts.refsHint = RefsHint.fail then
      .fail { s with refs := set2 s.refs s.idx (some r)
                     err := s.err ++ [.ambiguousRefAndObject p r,
                                      Error.mkAmbiguous candidates p] }
    else .ok { s with refs := set2 s.refs s.idx (some r) }
  | none => .ok (storeCandidates s candidates)

/-- The first two mutations of `disambiguate_prefix`: set the
last-call-was-disambiguation flag and record the prefix for the current
slot. -/
def pfxMarked (s : DState) (p : Pfx) : DState :=
  { s with lastCallWasDisambiguatePfx := set2 s.lastCallWasDisambiguatePfx s.idx true
           pfxs := set2 s.pfxs s.idx (some p) }

/-- `disambiguate_prefix`. -/
def disambiguatePfx (repo : Repo) (s : DState) (p : Pfx) : StepRes :=
  let s := pfxMarked s p
  match repo.lookupPfx p with
  | .err => .fail { s with err := s.err ++ [.odbLookupFailure] }
  | .notFound => .fail { s with err := s.err ++ [.pfxNotFound p] }
  | .found candidates =>
    if (nth2 s.objs s.idx).isSome then .panic .assertPfxTwice
    else
      match s.opts.refsHint with
      | .preferObjectOnFullLengthHexShaUseRefOtherwise =>
        if candidates = ∅ then .panic .expectAtLeastOne
        else if p.length = fullHexLen then .ok (storeCandidates s candidates)
        else refLookupArm repo s p candidates
      | .preferObject => .ok (storeCandidates s candidates)
      | .preferRef => refLookupArm repo s p candidates
      | .fail => refLookupArm repo s p candidates

/-- The unimplemented reference-producing callback `reflog` (`todo!()`). -/
def reflog (s : DState) (query : Nat) : StepRes :=
  let _ := unset_disambiguate_call s
  let _ := query
  .panic .todoUnimplemented

/-- The unimplemented callback `nth_checked_out_branch` (`todo!()`). -/
def nth_checked_out_branch (s : DState) (branchNo : Nat) : StepRes :=
  let _ := unset_disambiguate_call s
  let _ := branchNo
  .panic .todoUnimplemented

/-- The unimplemented callback `sibling_branch` (`todo!()`). -/
def sibling_branch (s : DState) (kind : Nat) : StepRes :=
  let _ := unset_disambiguate_call s
  let _ := kind
  .panic .todoUnimplemented

/-- The unimplemented navigation callback `traverse` (`todo!()`). -/
def traverse (s : DState) (kind : Nat) : StepRes :=
  let _ := unset_disambiguate_call s
  let _ := kind
  .panic .todoUnimplemented

/-- The unimplemented navigation callback `find` (regex search, `todo!()`). -/
def find_regex (s : DState) (regex : String) (negated : Bool) : StepRes :=
  let _ := unset_disambiguate_call s
  let _ := (regex, negated)
  .panic .todoUnimplemented

/-- The unimplemented navigation callback `index_lookup` (`todo!()`). -/
def index_lookup (s : DState) (path : String) (stage : Nat) : StepRes :=
  let _ := unset_disambiguate_call s
  let _ := (path, stage)
  .panic .todoUnimplemented

/-- The navigation requests of `peel_until` (`PeelTo`); path components
are pre-split (the splitting is done by the external `git_path` crate). -/
inductive PeelTo where
  | validObject
  | objectKind (kind : ObjKind)
  | path (components : List String)
  | recursiveTagObject
deriving DecidableEq

/-- Modelled from the spec: `Tree::lookup_path` (tree lookup capability,
§6) walks tree entries component by component and returns the entry id at
the path, or `none` when any component is missing or an intermediate
entry is not a tree. -/
def treeLookupPathFuel (repo : Repo) : Nat → List (String × ObjectId) → List String →
    Option ObjectId
  | 0, _, _ => none
  | _, _, [] => none
  | _ + 1, entries, [comp] =>
    (entries.find? fun e => e.1 = comp).map Prod.snd
  | fuel + 1, entries, comp :: rest =>
    match entries.find? fun e => e.1 = comp with
    | none => none
    | some (_, id) =>
      match repo.findObject id with
      | some (.tree es) => treeLookupPathFuel repo fuel es rest
      | _ => none

/-- `Tree::lookup_path` with enough fuel for the path length. -/
def treeLookupPath (repo : Repo) (entries : List (String × ObjectId))
    (comps : List String) : Option ObjectId :=
  treeLookupPathFuel repo (comps.length + 1) entries comps

/-- The `lookup_path` closure of `peel_until`: peel the candidate to a
tree, look the tree up (`into_tree` panics on a non-tree), then resolve
the path; a missing path is a `PathNotFound` naming the original object,
the tree it was peeled to, and the path. -/
def lookupPath (repo : Repo) (comps : List String) (obj : ObjectId) :
    PanicOr (Except Error ObjectId) :=
  match peel repo obj ObjKind.tree with
  | .error e => .val (.error e)
  | .ok treeId =>
    match repo.findObject treeId with
    | none => .val (.error (.notFound treeId))
    | some (.tree entries) =>
      match treeLookupPath repo entries comps with
      | some entryId => .val (.ok entryId)
      | none => .val (.error (.pathNotFound comps obj treeId))
    | some _ => .panic .expectTree

/-- Per-candidate outcome of one `peel_until` request: an error, success
keeping the candidate (`ok none`, the valid-object check), or success
replacing it (`ok (some r)`). -/
def peelOutcome (repo : Repo) (k : PeelTo) (o : ObjectId) :
    PanicOr (Except Error (Option ObjectId)) :=
  match k with
  | .validObject =>
    .val (match repo.findObject o with
          | some _ => .ok none
          | none => .error (.notFound o))
  | .objectKind kk => .val ((peel repo o kk).map some)
  | .path comps =>
    match lookupPath repo comps o with
    | .panic m => .panic m
    | .val (.ok r) => .val (.ok (some r))
    | .val (.error e) => .val (.error e)
  | .recursiveTagObject => .panic .todoUnimplemented

/-- The candidate loop of `peel_until`: outcomes in ascending id order,
aborting at the first panic. -/
def collectOutcomes (repo : Repo) (k : PeelTo) :
    List ObjectId → PanicOr (List (ObjectId × Except Error (Option ObjectId)))
  | [] => .val []
  | o :: rest =>
    match peelOutcome repo k o with
    | .panic m => .panic m
    | .val r =>
      match collectOutcomes repo k rest with
      | .panic m => .panic m
      | .val rs => .val ((o, r) :: rs)

/-- The failing candidates with their diagnostics (the `errors` vector). -/
def resErrors (rs : List (ObjectId × Except Error (Option ObjectId))) :
    List (ObjectId × Error) :=
  rs.filterMap fun p =>
    match p.2 with
    | .error e => some (p.1, e)
    | .ok _ => none

/-- The id replacements of successful candidates (the `replacements`
vector; the valid-object check produces none). -/
def resReplacements (rs : List (ObjectId × Except Error (Option ObjectId))) :
    List (ObjectId × ObjectId) :=
  rs.filterMap fun p =>
    match p.2 with
    | .ok (some r) => some (p.1, r)
    | _ => none

/-- Apply the replacement loop (`objs.remove(&find); objs.insert(replace)`). -/
def applyRepl (c : Finset ObjectId) (l : List (ObjectId × ObjectId)) : Finset ObjectId :=
  l.foldl (fun acc fr => insert fr.2 (acc.erase fr.1)) c

/-- The shared tail of `peel_until` (lines 354-367): if every candidate
failed, surface all errors and fail; otherwise remove the failing
candidates, record their diagnostics, apply the replacements and
succeed. -/
def peelTail (s : DState) (c : Finset ObjectId) (errors : List (ObjectId × Error))
    (reps : List (ObjectId × ObjectId)) : StepRes :=
  if errors.length = c.card then
    .fail { s with err := s.err ++ errors.map Prod.snd }
  else
    .ok { s with objs := set2 s.objs s.idx
                    (some (applyRepl (eraseAll c (errors.map Prod.fst)) reps))
                 err := s.err ++ errors.map Prod.snd }

/-- `peel_until`. -/
def peel_until (repo : Repo) (s : DState) (k : PeelTo) : StepRes :=
  let s := unset_disambiguate_call s
  let s := follow_refs_to_objects_if_needed repo s
  match nth2 s.objs s.idx with
  | none => .fail s
  | some c =>
    match k with
    | .recursiveTagObject => .panic .todoUnimplemented
    | _ =>
      match collectOutcomes repo k (finSort c) with
      | .panic m => .panic m
      | .val rs => peelTail s c (resErrors rs) (resReplacements rs)

/-- The structural `kind` callback: store the kind, run the fallback
disambiguation when the kind implies a committish endpoint, and advance
to the second endpoint slot for two-endpoint kinds; always succeeds. -/
def kind_callback (repo : Repo) (s : DState) (k : SpecKind) : StepRes :=
  let s := { s with kind := some k }
  let s :=
    if kind_implies_committish s then
      disambiguate_objects_by_fallback_hint repo s (some ObjectKindHint.committish)
    else s
  let s :=
    if k = SpecKind.rangeBetween ∨ k = SpecKind.reachableToMergeBase then
      { s with idx := s.idx + 1 }
    else s
  .ok s

/-- The per-endpoint entry of the `into_err` iterator: an ambiguity error
for a still-ambiguous candidate set whose prefix is recorded. -/
def ambEntry (ao : Option (Finset ObjectId)) (px : Option Pfx) : Option Error :=
  match ao, px with
  | some c, some p => if 1 < c.card then some (Error.mkAmbiguous c p) else none
  | _, _ => none

/-- `into_err`: build the ambiguity errors of both endpoints, reverse
them, and insert each at the front of the accumulated list; the result is
the ordered list handed to `Error::from_errors`. -/
def into_err (s : DState) : List Error :=
  (([ambEntry s.ambiguousObjects.1 s.pfxs.1,
     ambEntry s.ambiguousObjects.2 s.pfxs.2].filterMap id).reverse).foldl
    (fun acc e => e :: acc) s.err

/-- One endpoint of `zero_or_one_objects_or_ambguity_err`: no candidate
set passes through, an empty set is the `unreachable!` panic, a singleton
collapses to its element, and an ambiguous set turns into an ambiguity
error inserted ahead of the accumulated errors (the missing prefix is the
`expect` panic). -/
def collapseSlot (cand : Option (Finset ObjectId)) (px : Option Pfx)
    (errs : List Error) : PanicOr (Except (List Error) (Option ObjectId)) :=
  match cand with
  | none => .val (.ok none)
  | some c =>
    if c.card = 0 then .panic .unreachableNoCandidate
    else if c.card = 1 then .val (.ok (finSort c).head?)
    else
      match px with
      | none => .panic .expectPfxSet
      | some p => .val (.error (Error.mkAmbiguous c p :: errs))

/-- `zero_or_one_objects_or_ambguity_err`, endpoint 0 then endpoint 1,
returning at the first ambiguous endpoint. -/
def zeroOrOne (objs : Option (Finset ObjectId) × Option (Finset ObjectId))
    (pxs : Option Pfx × Option Pfx) (errs : List Error) :
    PanicOr (Except (List Error) (Option ObjectId × Option ObjectId)) :=
  match collapseSlot objs.1 pxs.1 errs with
  | .panic m => .panic m
  | .val (.error l) => .val (.error l)
  | .val (.ok o1) =>
    match collapseSlot objs.2 pxs.2 errs with
    | .panic m => .panic m
    | .val (.error l) => .val (.error l)
    | .val (.ok o2) => .val (.ok (o1, o2))

/-- The terminal resolved-spec shapes (`git_revision::Spec`). -/
inductive Spec where
  | Include (id : ObjectId)
  | Exclude (id : ObjectId)
  | Range (fromId toId : ObjectId)
  | Merge (theirs ours : ObjectId)
  | IncludeOnlyParents (fromExclusive : ObjectId)
  | ExcludeFromParents (fromId : ObjectId)
deriving DecidableEq

/-- `kind_to_spec`: combine the collapsed endpoint ids with the
structural kind; a missing required id is the `expect("set by parser")`
panic. -/
def kind_to_spec (k : Option SpecKind) (ids : Option ObjectId × Option ObjectId) :
    PanicOr Spec :=
  match k.getD SpecKind.includeReachable with
  | .includeReachable =>
    match ids.1 with
    | some a => .val (.Include a)
    | none => .panic .expectSetByParser
  | .excludeReachable =>
    match ids.1 with
    | some a => .val (.Exclude a)
    | none => .panic .expectSetByParser
  | .rangeBetween =>
    match ids.1, ids.2 with
    | some a, some b => .val (.Range a b)
    | _, _ => .panic .expectSetByParser
  | .reachableToMergeBase =>
    match ids.1, ids.2 with
    | some a, some b => .val (.Merge a b)
    | _, _ => .panic .expectSetByParser
  | .includeReachableFromParents =>
    match ids.1 with
    | some a => .val (.IncludeOnlyParents a)
    | none => .panic .expectSetByParser
  | .excludeReachableFromParents =>
    match ids.1 with
    | some a => .val (.ExcludeFromParents a)
    | none => .panic .expectSetByParser

/-- The terminal output (`crate::RevSpec`): the resolved shape plus the
ref names used per endpoint. -/
structure RevSpec where
  firstRef : Option Reference
  secondRef : Option Reference
  inner : Spec
deriving DecidableEq

/-- `into_rev_spec`: collapse both candidate sets, then assemble the
spec; the error value carries the ordered list handed to
`Error::from_errors`. -/
def into_rev_spec (s : DState) : PanicOr (Except (List Error) RevSpec) :=
  match zeroOrOne s.objs s.pfxs s.err with
  | .panic m => .panic m
  | .val (.error l) => .val (.error l)
  | .val (.ok range) =>
    match kind_to_spec s.kind range with
    | .panic m => .panic m
    | .val sp => .val (.ok { firstRef := s.refs.1, secondRef := s.refs.2, inner := sp })

/-- Options with the prefer-object policy and no kind hint. -/
def optsPreferObject : Options := ⟨RefsHint.preferObject, none⟩

/-- Concrete store: prefix `6` matches a blob (id 100) and a commit
(id 101) whose tree is id 200; no references exist. -/
def c1repo : Repo :=
  { refsFind := fun _ => none
    lookupPfx := fun p => if p = "6" then LookupRes.found {100, 101} else .notFound
    findObject := fun id =>
      if id = 100 then some Object.blob
      else if id = 101 then some (Object.commit 200)
      else if id = 200 then some (Object.tree [])
      else none }

/-- State after disambiguating prefix `6` in `c1repo`. -/
def c1s1 : DState :=
  { initDelegate optsPreferObject with
      lastCallWasDisambiguatePfx := (true, false)
      pfxs := (some "6", none)
      ambiguousObjects := (some ({100, 101} : Finset ObjectId), none)
      objs := (some ({100, 101} : Finset ObjectId), none) }

/-- The diagnostic recorded for the blob candidate during peel-to-commit. -/
def c1err : Error := .objectKind .blob .commit 100

/-- State after peeling to commit: the blob candidate was removed, its
diagnostic recorded, the commit candidate survived. -/
def c1s2 : DState :=
  { c1s1 with
      lastCallWasDisambiguatePfx := (false, false)
      objs := (some ({101} : Finset ObjectId), none)
      err := [c1err] }

-- C3 scenario: fail-on-tie with a prefix that is both a ref name and an object
def refAb : Reference := ⟨"ab", .direct 7⟩
def c3repo : Repo :=
  { refsFind := fun n => if n = "ab" then some refAb else none
    lookupPfx := fun p => if p = "ab" then LookupRes.found {7} else .notFound
    findObject := fun _ => none }
def optsFail : Options := ⟨RefsHint.fail, none⟩

-- C5 scenario: fallback hint narrows away every candidate but the callback succeeds
def c5repo : Repo :=
  { refsFind := fun _ => none
    lookupPfx := fun _ => .notFound
    findObject := fun id => if id = 1 ∨ id = 2 then some Object.blob else none }
def c5state : DState :=
  { initDelegate optsPreferObject with
      objs := (some ({1, 2} : Finset ObjectId), none)
      ambiguousObjects := (some ({1, 2} : Finset ObjectId), none)
      pfxs := (some "1", none)
      lastCallWasDisambiguatePfx := (true, false) }

-- C6 scenario: into_err ordering with both endpoints ambiguous
def c6state : DState :=
  { initDelegate optsPreferObject with
      ambiguousObjects := (some ({1, 2} : Finset ObjectId), some ({3, 4} : Finset ObjectId))
      pfxs := (some "a", some "b")
      err := [.odbLookupFailure] }

-- C7 scenario: dangling symbolic ref, promotion installs nothing
def c7ref : Reference := ⟨"HEAD", .symbolic "refs/heads/main"⟩
def c7repo : Repo :=
  { refsFind := fun _ => none, lookupPfx := fun _ => .notFound, findObject := fun _ => none }
def c7state : DState :=
  { initDelegate optsPreferObject with refs := (some c7ref, none) }

-- C9 scenario: path a/b/c where a/b exists but c does not
def c9repo : Repo :=
  { refsFind := fun _ => none
    lookupPfx := fun _ => .notFound
    findObject := fun id =>
      if id = 10 then some (Object.tree [("a", 20)])
      else if id = 20 then some (Object.tree [("b", 30)])
      else if id = 30 then some (Object.tree [("x", 40)])
      else if id = 40 then some Object.blob
      else none }
def c9state : DState :=
  { initDelegate optsPreferObject with objs := (some ({10} : Finset ObjectId), none) }

-- C10 scenario: range kind with unpopulated second endpoint panics
def c10state : DState :=
  { initDelegate optsPreferObject with
      objs := (some ({5} : Finset ObjectId), none)
      kind := some .rangeBetween }

/-- A slot respects the candidate-set invariant when it is unset or holds
a non-empty set. -/
def slotInv (o : Option (Finset ObjectId)) : Prop :=
  match o with
  | none => True
  | some c => c.Nonempty

instance slotInvDecidable : DecidablePred slotInv := fun o =>
  match o with
  | none => .isTrue trivial
  | some _ => Finset.decidableNonempty

/-- The data-model invariant (§3): neither endpoint slot ever holds an
empty candidate set. -/
def Inv (s : DState) : Prop :=
  slotInv s.objs.1 ∧ slotInv s.objs.2

instance invDecidable (s : DState) : Decidable (Inv s) :=
  instDecidableAnd

/-- One observable mutation of the delegate by any of its callbacks (the
successor state of a callback returning `Some(())` or `None`, or of
`done`). -/
inductive Step (repo : Repo) : DState → DState → Prop where
  | find_ref_ok : ∀ s s2 name, find_ref repo s name = .ok s2 → Step repo s s2
  | find_ref_fail : ∀ s s2 name, find_ref repo s name = .fail s2 → Step repo s s2
  | disambiguate_ok : ∀ s s2 p, disambiguatePfx repo s p = .ok s2 → Step repo s s2
  | disambiguate_fail : ∀ s s2 p, disambiguatePfx repo s p = .fail s2 → Step repo s s2
  | peel_ok : ∀ s s2 k, peel_until repo s k = .ok s2 → Step repo s s2
  | peel_fail : ∀ s s2 k, peel_until repo s k = .fail s2 → Step repo s s2
  | kind_ok : ∀ s s2 k, kind_callback repo s k = .ok s2 → Step repo s s2
  | kind_fail : ∀ s s2 k, kind_callback repo s k = .fail s2 → Step repo s s2
  | done_step : ∀ s, Step repo s (done repo s)

/-- The outcome list a (non-`RecursiveTagObject`) `peel_until` request
computes over the candidate set. -/
def outcomesOf (repo : Repo) (k : PeelTo) (c : Finset ObjectId) :
    List (ObjectId × Except Error (Option ObjectId)) :=
  match collectOutcomes repo k (finSort c) with
  | .val rs => rs
  | .panic _ => []

/-- The surviving candidate set of a partially failing `peel_until`:
failing candidates removed, replacements applied. -/
def survivorsOf (repo : Repo) (k : PeelTo) (c : Finset ObjectId) : Finset ObjectId :=
  applyRepl (eraseAll c ((resErrors (outcomesOf repo k c)).map Prod.fst))
    (resReplacements (outcomesOf repo k c))

/-- A slot already collapsed: the candidate set (when present) has at
most one element. -/
def slotAtMostOne (o : Option (Finset ObjectId)) : Prop :=
  match o with
  | none => True
  | some c => c.card ≤ 1

instance slotAtMostOneDecidable : DecidablePred slotAtMostOne := fun o =>
  match o with
  | none => .isTrue trivial
  | some c => Nat.decLe c.card 1

/-- A store with no references and no objects at all. -/
def trivialRepo : Repo :=
  { refsFind := fun _ => none, lookupPfx := fun _ => .notFound, findObject := fun _ => none }

/-- The invariant holds of the state carried by a non-panicking result. -/
def stepResInv : StepRes → Prop
  | .ok s => Inv s
  | .fail s => Inv s
  | .panic _ => True

theorem foldl_cons_eq_reverse_append {α : Type} (l : List α) (init : List α) :
    l.foldl (fun acc e => e :: acc) init = l.reverse ++ init := by
  induction l generalizing init with
  | nil => rfl
  | cons x t ih =>
    simp only [List.foldl_cons, ih, List.reverse_cons, List.append_assoc,
      List.singleton_append]

theorem finSort_coe (c : Finset ObjectId) :
    ((finSort c : List ObjectId) : Multiset ObjectId) = c.val := by
  rcases c with ⟨m, hm⟩
  revert hm
  induction m using Quotient.inductionOn with
  | h l => exact fun _ => Quot.sound (List.perm_insertionSort _ l)

theorem finSort_length (c : Finset ObjectId) : (finSort c).length = c.card := by
  have h := congrArg Multiset.card (finSort_coe c)
  rwa [Multiset.coe_card] at h

theorem finSort_mem (c : Finset ObjectId) (a : ObjectId) : a ∈ finSort c ↔ a ∈ c := by
  have h := finSort_coe c
  constructor
  · intro ha
    have : a ∈ (finSort c : Multiset ObjectId) := by simpa using ha
    rw [h] at this
    exact this
  · intro ha
    have : a ∈ (finSort c : Multiset ObjectId) := by rw [h]; exact ha
    simpa using this

theorem eraseAll_card (c : Finset ObjectId) (l : List ObjectId) :
    c.card - l.length ≤ (eraseAll c l).card := by
  induction l generalizing c with
  | nil => simp [eraseAll]
  | cons x t ih =>
    have h1 : c.card - (x :: t).length = (c.card - 1) - t.length := by
      simp [List.length_cons]
      omega
    have h2 : (c.card - 1) - t.length ≤ (c.erase x).card - t.length :=
      Nat.sub_le_sub_right (Finset.pred_card_le_card_erase) t.length
    have h3 : (c.erase x).card - t.length ≤ (eraseAll (c.erase x) t).card := ih (c.erase x)
    have h4 : eraseAll c (x :: t) = eraseAll (c.erase x) t := rfl
    rw [h4, h1]
    exact le_trans h2 h3

theorem applyRepl_nil (c : Finset ObjectId) : applyRepl c [] = c := rfl

theorem applyRepl_nonempty (l : List (ObjectId × ObjectId)) :
    ∀ c : Finset ObjectId, l ≠ [] → (applyRepl c l).Nonempty := by
  induction l with
  | nil => intro c h; exact absurd rfl h
  | cons x t ih =>
    intro c _
    cases t with
    | nil => exact Finset.insert_nonempty _ _
    | cons y u =>
      have h1 : applyRepl c (x :: y :: u) = applyRepl (insert x.2 (c.erase x.1)) (y :: u) := rfl
      rw [h1]
      exact ih _ (by simp)

theorem resErrors_length_le (rs : List (ObjectId × Except Error (Option ObjectId))) :
    (resErrors rs).length ≤ rs.length :=
  List.length_filterMap_le _ _

theorem peelToKindFuel_ok {repo : Repo} {k : ObjKind} :
    ∀ {fuel : Nat} {oid r : ObjectId}, peelToKindFuel repo fuel oid k = .ok r →
      ∃ o, repo.findObject r = some o ∧ o.kind = k := by
  intro fuel
  induction fuel with
  | zero => intro oid r h; exact absurd h (by simp [peelToKindFuel])
  | succ n ih =>
    intro oid r h
    rw [peelToKindFuel] at h
    split at h
    · exact absurd h (by simp)
    · rename_i o hfind
      split at h
      · rename_i hk2
        have hr : oid = r := by injection h
        subst hr
        exact ⟨o, hfind, hk2⟩
      · split at h
        · exact ih h
        · split at h
          · exact ih h
          · exact absurd h (by simp)
        · exact absurd h (by simp)

theorem peel_ok_kind {repo : Repo} {obj r : ObjectId} {k : ObjKind}
    (h : peel repo obj k = .ok r) :
    ∃ o, repo.findObject r = some o ∧ o.kind = k :=
  peelToKindFuel_ok h

theorem lookupPath_no_panic (repo : Repo) (comps : List String) (o : ObjectId)
    (m : PanicMsg) : lookupPath repo comps o ≠ .panic m := by
  intro hcontra
  unfold lookupPath at hcontra
  split at hcontra
  · exact absurd hcontra (by simp)
  · rename_i treeId hp
    obtain ⟨ob, hfind, hkind⟩ := peel_ok_kind hp
    split at hcontra
    · exact absurd hcontra (by simp)
    · split at hcontra
      · exact absurd hcontra (by simp)
      · exact absurd hcontra (by simp)
    · rename_i ob2 hnotree hfind2
      rw [hfind] at hfind2
      have hob : ob = ob2 := by injection hfind2
      cases ob with
      | tree entries => exact hnotree entries (by rw [← hob])
      | commit tr => exact absurd hkind (by simp [Object.kind])
      | blob => exact absurd hkind (by simp [Object.kind])
      | tag t => exact absurd hkind (by simp [Object.kind])

theorem lookupPath_val (repo : Repo) (comps : List String) (o : ObjectId) :
    ∃ r, lookupPath repo comps o = .val r := by
  cases hl : lookupPath repo comps o with
  | panic m => exact absurd hl (lookupPath_no_panic repo comps o m)
  | val r => exact ⟨r, rfl⟩

theorem peelOutcome_val (repo : Repo) (k : PeelTo) (hk : k ≠ PeelTo.recursiveTagObject)
    (o : ObjectId) : ∃ r, peelOutcome repo k o = .val r := by
  cases k with
  | validObject => exact ⟨_, rfl⟩
  | objectKind kk => exact ⟨_, rfl⟩
  | path comps =>
    obtain ⟨r, hr⟩ := lookupPath_val repo comps o
    cases r with
    | ok v => exact ⟨.ok (some v), by simp [peelOutcome, hr]⟩
    | error e => exact ⟨.error e, by simp [peelOutcome, hr]⟩
  | recursiveTagObject => exact absurd rfl hk

theorem collectOutcomes_val (repo : Repo) (k : PeelTo)
    (hk : k ≠ PeelTo.recursiveTagObject) :
    ∀ l : List ObjectId, ∃ rs, collectOutcomes repo k l = .val rs ∧
      rs.map Prod.fst = l := by
  intro l
  induction l with
  | nil => exact ⟨[], rfl, rfl⟩
  | cons o rest ih =>
    obtain ⟨r, hr⟩ := peelOutcome_val repo k hk o
    obtain ⟨rs, hrs, hfst⟩ := ih
    refine ⟨(o, r) :: rs, ?_, ?_⟩
    · unfold collectOutcomes
      rw [hr, hrs]
    · simp [hfst]

theorem hintErrors_length_le (repo : Repo) (h : ObjectKindHint) (c : Finset ObjectId) :
    (hintErrors repo h c).length ≤ c.card := by
  have hs := finSort_length c
  cases h with
  | treeish => exact le_trans (List.length_filterMap_le _ _) (le_of_eq hs)
  | committish => exact le_trans (List.length_filterMap_le _ _) (le_of_eq hs)
  | tree => exact le_trans (List.length_filterMap_le _ _) (le_of_eq hs)
  | commit => exact le_trans (List.length_filterMap_le _ _) (le_of_eq hs)
  | blob => exact le_trans (List.length_filterMap_le _ _) (le_of_eq hs)

theorem slotInv_set2 (p : Option (Finset ObjectId) × Option (Finset ObjectId))
    (i : Nat) (o : Option (Finset ObjectId)) (h1 : slotInv p.1) (h2 : slotInv p.2)
    (ho : slotInv o) : slotInv (set2 p i o).1 ∧ slotInv (set2 p i o).2 := by
  cases i with
  | zero => exact ⟨ho, h2⟩
  | succ n => exact ⟨h1, ho⟩

theorem slotInv_eraseAll (c : Finset ObjectId) (l : List ObjectId)
    (h : l.length < c.card) : (eraseAll c l).Nonempty := by
  have := eraseAll_card c l
  have hpos : 0 < (eraseAll c l).card := by omega
  exact Finset.card_pos.mp hpos


theorem followRefsSlot_inv (repo : Repo) (r : Option Reference)
    (o : Option (Finset ObjectId)) (h : slotInv o) :
    slotInv (followRefsSlot repo r o) := by
  cases r with
  | none => exact h
  | some r =>
    cases o with
    | some c => exact h
    | none =>
      show slotInv (match refTargetId repo r with
        | some id => some (insert id ∅) | none => none)
      cases refTargetId repo r with
      | none => exact trivial
      | some id => exact Finset.insert_nonempty id ∅

theorem follow_refs_inv (repo : Repo) (s : DState) (h : Inv s) :
    Inv (follow_refs_to_objects_if_needed repo s) :=
  ⟨followRefsSlot_inv repo s.refs.1 s.objs.1 h.1,
   followRefsSlot_inv repo s.refs.2 s.objs.2 h.2⟩

theorem storeCandidates_inv (s : DState) (c : Finset ObjectId) (hc : c.Nonempty)
    (h : Inv s) : Inv (storeCandidates s c) :=
  slotInv_set2 s.objs s.idx (some c) h.1 h.2 hc

theorem fallback_inv (repo : Repo) (s : DState) (hint : Option ObjectKindHint)
    (h : Inv s) : Inv (disambiguate_objects_by_fallback_hint repo s hint) := by
  simp only [disambiguate_objects_by_fallback_hint]
  split
  · split
    · exact h
    · rename_i c heq
      split
      · exact h
      · rename_i kh
        split
        · exact h
        · rename_i hne
          refine slotInv_set2 _ _ _ h.1 h.2 ?_
          have hle := hintErrors_length_le repo kh c
          have hlt : (hintErrors repo kh c).length < c.card := lt_of_le_of_ne hle hne
          have : ((hintErrors repo kh c).map Prod.fst).length < c.card := by
            rwa [List.length_map]
          exact slotInv_eraseAll c _ this
  · exact h

theorem refLookupArm_inv (repo : Repo) (s : DState) (p : Pfx) (c : Finset ObjectId)
    (hc : c.Nonempty) (h : Inv s) : stepResInv (refLookupArm repo s p c) := by
  unfold refLookupArm
  split
  · split
    · exact trivial
    · split
      · exact h
      · exact h
  · exact storeCandidates_inv s c hc h

theorem disambiguatePfx_inv (repo : Repo) (s : DState) (p : Pfx) (hWF : RepoWF repo)
    (h : Inv s) : stepResInv (disambiguatePfx repo s p) := by
  simp only [disambiguatePfx]
  split
  · exact h
  · exact h
  · rename_i candidates heq
    have hne := hWF p candidates heq
    split
    · exact trivial
    · split
      · split
        · exact trivial
        · split
          · exact storeCandidates_inv _ candidates hne h
          · exact refLookupArm_inv repo _ p candidates hne h
      · exact storeCandidates_inv _ candidates hne h
      · exact refLookupArm_inv repo _ p candidates hne h
      · exact refLookupArm_inv repo _ p candidates hne h

theorem find_ref_inv (repo : Repo) (s : DState) (name : String) (h : Inv s) :
    stepResInv (find_ref repo s name) := by
  simp only [find_ref]
  split
  · exact h
  · split
    · split
      · exact trivial
      · exact h
    · exact h

theorem peelTail_inv (s : DState) (c : Finset ObjectId) (errors : List (ObjectId × Error))
    (reps : List (ObjectId × ObjectId)) (hle : errors.length ≤ c.card) (h : Inv s) :
    stepResInv (peelTail s c errors reps) := by
  unfold peelTail
  split
  · exact h
  · rename_i hne
    refine slotInv_set2 _ _ _ h.1 h.2 ?_
    cases reps with
    | nil =>
      rw [applyRepl_nil]
      have hlt : errors.length < c.card := lt_of_le_of_ne hle hne
      have : (errors.map Prod.fst).length < c.card := by rwa [List.length_map]
      exact slotInv_eraseAll c _ this
    | cons x t => exact applyRepl_nonempty (x :: t) _ (by simp)

theorem peel_until_tail_inv (repo : Repo) (s1 : DState) (k : PeelTo) (c : Finset ObjectId)
    (hk : k ≠ PeelTo.recursiveTagObject) (h1 : Inv s1) :
    stepResInv (match collectOutcomes repo k (finSort c) with
      | .panic m => StepRes.panic m
      | .val rs => peelTail s1 c (resErrors rs) (resReplacements rs)) := by
  obtain ⟨rs2, hrs2, hfst⟩ := collectOutcomes_val repo k hk (finSort c)
  rw [hrs2]
  have hlen : rs2.length = c.card := by
    have := congrArg List.length hfst
    rwa [List.length_map, finSort_length] at this
  exact peelTail_inv s1 c _ _ (hlen ▸ resErrors_length_le rs2) h1

theorem peel_until_inv (repo : Repo) (s : DState) (k : PeelTo) (h : Inv s) :
    stepResInv (peel_until repo s k) := by
  have h1 : Inv (follow_refs_to_objects_if_needed repo (unset_disambiguate_call s)) :=
    follow_refs_inv repo _ h
  simp only [peel_until]
  split
  · exact h1
  · rename_i c heq
    cases k with
    | recursiveTagObject => exact trivial
    | validObject =>
      exact peel_until_tail_inv repo _ _ c (fun hh => PeelTo.noConfusion hh) h1
    | objectKind kk =>
      exact peel_until_tail_inv repo _ _ c (fun hh => PeelTo.noConfusion hh) h1
    | path comps =>
      exact peel_until_tail_inv repo _ _ c (fun hh => PeelTo.noConfusion hh) h1

theorem kind_callback_inv (repo : Repo) (s : DState) (k : SpecKind) (h : Inv s) :
    stepResInv (kind_callback repo s k) := by
  simp only [kind_callback]
  split <;> split <;>
    first
      | exact fallback_inv repo _ _ h
      | exact h

theorem done_inv (repo : Repo) (s : DState) (h : Inv s) : Inv (done repo s) :=
  fallback_inv repo _ _ (follow_refs_inv repo s h)

theorem unset_idx (s : DState) : (unset_disambiguate_call s).idx = s.idx := rfl

theorem unset_objs (s : DState) : (unset_disambiguate_call s).objs = s.objs := rfl

theorem unset_err (s : DState) : (unset_disambiguate_call s).err = s.err := rfl

theorem follow_idx (repo : Repo) (s : DState) :
    (follow_refs_to_objects_if_needed repo s).idx = s.idx := rfl

theorem follow_err (repo : Repo) (s : DState) :
    (follow_refs_to_objects_if_needed repo s).err = s.err := rfl

theorem peel_until_eq (repo : Repo) (s : DState) (k : PeelTo) (c : Finset ObjectId)
    (hk : k ≠ PeelTo.recursiveTagObject)
    (hslot : nth2 (follow_refs_to_objects_if_needed repo (unset_disambiguate_call s)).objs
      s.idx = some c) :
    peel_until repo s k =
      peelTail (follow_refs_to_objects_if_needed repo (unset_disambiguate_call s)) c
        (resErrors (outcomesOf repo k c)) (resReplacements (outcomesOf repo k c)) := by
  obtain ⟨rs, hrs, hfst⟩ := collectOutcomes_val repo k hk (finSort c)
  have houtc : outcomesOf repo k c = rs := by
    unfold outcomesOf
    rw [hrs]
  have hred : peel_until repo s k =
      (match k with
       | PeelTo.recursiveTagObject => StepRes.panic .todoUnimplemented
       | _ =>
         match collectOutcomes repo k (finSort c) with
         | .panic m => StepRes.panic m
         | .val rs2 =>
           peelTail (follow_refs_to_objects_if_needed repo (unset_disambiguate_call s)) c
             (resErrors rs2) (resReplacements rs2)) := by
    simp only [peel_until, follow_idx, unset_idx]
    rw [hslot]
  rw [hred, houtc]
  cases k with
  | recursiveTagObject => exact absurd rfl hk
  | validObject => rw [hrs]
  | objectKind kk => rw [hrs]
  | path comps => rw [hrs]

theorem collapseSlot_no_unreachable (o : Option (Finset ObjectId)) (px : Option Pfx)
    (errs : List Error) (h : slotInv o) :
    collapseSlot o px errs ≠ .panic .unreachableNoCandidate := by
  intro hc
  unfold collapseSlot at hc
  split at hc
  · exact absurd hc (by simp)
  · rename_i c
    split at hc
    · rename_i hzero
      have : 0 < c.card := Finset.card_pos.mpr h
      omega
    · split at hc
      · exact absurd hc (by simp)
      · split at hc
        · have hm : PanicMsg.expectPfxSet = PanicMsg.unreachableNoCandidate := by
            injection hc
          exact PanicMsg.noConfusion hm
        · exact absurd hc (by simp)

theorem zeroOrOne_no_unreachable
    (objs : Option (Finset ObjectId) × Option (Finset ObjectId))
    (pxs : Option Pfx × Option Pfx) (errs : List Error)
    (h1 : slotInv objs.1) (h2 : slotInv objs.2) :
    zeroOrOne objs pxs errs ≠ .panic .unreachableNoCandidate := by
  intro hc
  unfold zeroOrOne at hc
  split at hc
  · rename_i m heq
    have hm : m = PanicMsg.unreachableNoCandidate := by injection hc
    subst hm
    exact collapseSlot_no_unreachable objs.1 pxs.1 errs h1 heq
  · exact absurd hc (by simp)
  · split at hc
    · rename_i m heq
      have hm : m = PanicMsg.unreachableNoCandidate := by injection hc
      subst hm
      exact collapseSlot_no_unreachable objs.2 pxs.2 errs h2 heq
    · exact absurd hc (by simp)
    · exact absurd hc (by simp)

theorem kind_to_spec_no_unreachable (k : Option SpecKind)
    (ids : Option ObjectId × Option ObjectId) :
    kind_to_spec k ids ≠ .panic .unreachableNoCandidate := by
  intro hc
  unfold kind_to_spec at hc
  split at hc <;> split at hc <;> exact absurd hc (by simp)

theorem into_rev_spec_no_unreachable (s : DState) (h : Inv s) :
    into_rev_spec s ≠ .panic .unreachableNoCandidate := by
  intro hc
  unfold into_rev_spec at hc
  split at hc
  · rename_i m heq
    have hm : m = PanicMsg.unreachableNoCandidate := by injection hc
    subst hm
    exact zeroOrOne_no_unreachable s.objs s.pfxs s.err h.1 h.2 heq
  · exact absurd hc (by simp)
  · split at hc
    · rename_i m heq
      have hm : m = PanicMsg.unreachableNoCandidate := by injection hc
      subst hm
      exact kind_to_spec_no_unreachable s.kind _ heq
    · exact absurd hc (by simp)

theorem collapseSlot_no_error (o : Option (Finset ObjectId)) (px : Option Pfx)
    (errs : List Error) (h : slotAtMostOne o) :
    ∀ l, collapseSlot o px errs ≠ .val (.error l) := by
  intro l hc
  unfold collapseSlot at hc
  split at hc
  · exact absurd hc (by simp)
  · rename_i c
    have hcard : c.card ≤ 1 := h
    split at hc
    · exact absurd hc (by simp)
    · split at hc
      · exact absurd hc (by simp)
      · rename_i hz ho
        omega

theorem zeroOrOne_no_error (objs : Option (Finset ObjectId) × Option (Finset ObjectId))
    (pxs : Option Pfx × Option Pfx) (errs : List Error)
    (h1 : slotAtMostOne objs.1) (h2 : slotAtMostOne objs.2) :
    ∀ l, zeroOrOne objs pxs errs ≠ .val (.error l) := by
  intro l hc
  unfold zeroOrOne at hc
  split at hc
  · exact absurd hc (by simp)
  · rename_i l2 heq
    exact collapseSlot_no_error objs.1 pxs.1 errs h1 l2 heq
  · split at hc
    · exact absurd hc (by simp)
    · rename_i l2 heq
      exact collapseSlot_no_error objs.2 pxs.2 errs h2 l2 heq
    · exact absurd hc (by simp)

/-- C1 counterexample: a parse that completes successfully with a
diagnostic recorded on the way (a two-candidate prefix narrowed by a
peel, the failing candidate's error kept), after which `into_rev_spec`
returns a resolved spec even though the accumulated error list is
non-empty — contradicting the claim that any accumulated diagnostics
make `into_rev_spec` fail with the aggregated error list. -/
theorem C1_counterexample :
    disambiguatePfx c1repo (initDelegate optsPreferObject) "6" = .ok c1s1 ∧
    peel_until c1repo c1s1 (.objectKind .commit) = .ok c1s2 ∧
    done c1repo c1s2 = c1s2 ∧
    c1s2.err ≠ [] ∧
    into_rev_spec c1s2 =
      .val (.ok { firstRef := none, secondRef := none, inner := .Include 101 }) :=
  ⟨by decide, by decide, by decide, by decide, by decide⟩

/-- C1 (amended): `into_rev_spec` fails with the aggregated error list
only when some endpoint candidate set still has two or more elements;
when every endpoint set has at most one element it returns a resolved
spec regardless of accumulated diagnostics, which are discarded. -/
theorem C1_amended (s : DState) (h1 : slotAtMostOne s.objs.1)
    (h2 : slotAtMostOne s.objs.2) :
    ∀ l, into_rev_spec s ≠ .val (.error l) := by
  intro l hc
  unfold into_rev_spec at hc
  split at hc
  · exact absurd hc (by simp)
  · rename_i l2 heq
    exact zeroOrOne_no_error s.objs s.pfxs s.err h1 h2 l2 heq
  · split at hc
    · exact absurd hc (by simp)
    · exact absurd hc (by simp)

/-- C1 (amended) witness at the state of the counterexample run. -/
theorem C1_amended_witness :
    slotAtMostOne c1s2.objs.1 ∧ slotAtMostOne c1s2.objs.2 ∧
    into_rev_spec c1s2 ≠ .val (.error [c1err]) :=
  ⟨by decide, by decide, C1_amended c1s2 (by decide) (by decide) [c1err]⟩

/-- C5 counterexample: when the fallback kind-hint disambiguation would
remove every candidate (two blobs against a committish hint), the
explaining errors are recorded and the set is left unemptied, but the
enclosing `kind` callback still succeeds — the claim that the step
"fails instead" is false for this narrowing operation. -/
theorem C5_counterexample :
    c5state.objs.1 = some ({1, 2} : Finset ObjectId) ∧
    kind_callback c5repo c5state .excludeReachable =
      .ok { c5state with
              kind := some .excludeReachable
              lastCallWasDisambiguatePfx := (false, false)
              err := [.objectKind .blob .commit 1, .objectKind .blob .commit 2] } :=
  ⟨by decide, by decide⟩

/-- C5 (amended): no delegate operation ever leaves a slot holding an
empty candidate set — every callback and the finalization pass preserve
the non-emptiness invariant (narrowing that would empty a set records
its errors and leaves the set untouched; `peel_until` additionally
fails, while the fallback kind-hint step has no failure channel) — and
consequently the size-zero `unreachable!` at final assembly can never
fire. -/
theorem C5_theorem (repo : Repo) (s s2 : DState) (hWF : RepoWF repo) (hInv : Inv s) :
    (Step repo s s2 → Inv s2) ∧
    into_rev_spec s ≠ .panic .unreachableNoCandidate := by
  constructor
  · intro hstep
    cases hstep with
    | find_ref_ok _ name heq =>
      have h := find_ref_inv repo s name hInv
      rw [heq] at h
      exact h
    | find_ref_fail _ name heq =>
      have h := find_ref_inv repo s name hInv
      rw [heq] at h
      exact h
    | disambiguate_ok _ p heq =>
      have h := disambiguatePfx_inv repo s p hWF hInv
      rw [heq] at h
      exact h
    | disambiguate_fail _ p heq =>
      have h := disambiguatePfx_inv repo s p hWF hInv
      rw [heq] at h
      exact h
    | peel_ok _ k heq =>
      have h := peel_until_inv repo s k hInv
      rw [heq] at h
      exact h
    | peel_fail _ k heq =>
      have h := peel_until_inv repo s k hInv
      rw [heq] at h
      exact h
    | kind_ok _ k heq =>
      have h := kind_callback_inv repo s k hInv
      rw [heq] at h
      exact h
    | kind_fail _ k heq =>
      have h := kind_callback_inv repo s k hInv
      rw [heq] at h
      exact h
    | done_step => exact done_inv repo s hInv
  · exact into_rev_spec_no_unreachable s hInv

/-- C5 (amended) witness on the empty store and fresh delegate state. -/
theorem C5_theorem_witness :
    (Step trivialRepo (initDelegate optsPreferObject) c1s1 → Inv c1s1) ∧
    into_rev_spec (initDelegate optsPreferObject) ≠ .panic .unreachableNoCandidate :=
  C5_theorem trivialRepo (initDelegate optsPreferObject) c1s1
    (fun p c h => by simp [trivialRepo] at h) (by decide)

/-- C6 counterexample: with both endpoints still ambiguous, `into_err`
places the endpoint-0 ambiguity diagnostic first and the endpoint-1
diagnostic second (both ahead of previously accumulated errors) — not
endpoint 1 before endpoint 0 as the claim states. -/
theorem C6_counterexample :
    into_err c6state =
      [.ambiguousIds [1, 2] "a", .ambiguousIds [3, 4] "b", .odbLookupFailure] ∧
    into_err c6state ≠
      [.ambiguousIds [3, 4] "b", .ambiguousIds [1, 2] "a", .odbLookupFailure] :=
  ⟨by decide, by decide⟩

/-- C6 (amended): when producing the aggregated error list, the
ambiguity diagnostics of endpoints whose candidate set still has more
than one element are inserted ahead of all previously accumulated
diagnostics, in endpoint order — endpoint 0 first, then endpoint 1
(the reversal of the endpoint iterator combined with repeated insertion
at the front restores front-to-back endpoint order). -/
theorem C6_amended (s : DState) :
    into_err s =
      ([ambEntry s.ambiguousObjects.1 s.pfxs.1,
        ambEntry s.ambiguousObjects.2 s.pfxs.2].filterMap id) ++ s.err := by
  unfold into_err
  rw [foldl_cons_eq_reverse_append, List.reverse_reverse]

/-- C7 counterexample: an endpoint named by a symbolic reference whose
chain cannot be resolved (the symref target does not exist) reaches
assembly with no candidate set at all — ref-to-object promotion installs
nothing, contradicting the guarantee that every endpoint reaching
assembly has some object candidate set. -/
theorem C7_counterexample :
    c7state.refs.1 = some c7ref ∧ c7state.objs.1 = none ∧
    (follow_refs_to_objects_if_needed c7repo c7state).objs.1 = none :=
  ⟨rfl, rfl, by decide⟩

/-- C7 (amended): ref-to-object promotion acts slot-wise; a slot holding
a resolved reference and no candidate set receives the one-element set
of the reference's concrete target id when that id is obtainable — the
direct target id as-is, or the result of following symbolic indirection
and peeling annotated tags — and is left without any candidate set when
the chain cannot be resolved; slots without a reference or with an
existing candidate set are untouched. -/
theorem C7_amended (repo : Repo) (s : DState) (r : Reference) :
    ((follow_refs_to_objects_if_needed repo s).objs =
      (followRefsSlot repo s.refs.1 s.objs.1, followRefsSlot repo s.refs.2 s.objs.2)) ∧
    (followRefsSlot repo (some r) none =
      match refTargetId repo r with
      | some id => some (insert id ∅)
      | none => none) ∧
    (∀ id, r.target = .direct id → refTargetId repo r = some id) ∧
    (∀ n, r.target = .symbolic n → refTargetId repo r = refPeelToId repo peelSteps r) ∧
    (∀ o, followRefsSlot repo none o = o) ∧
    (∀ c2, followRefsSlot repo (some r) (some c2) = some c2) := by
  refine ⟨rfl, rfl, ?_, ?_, ?_, ?_⟩
  · intro id hid
    unfold refTargetId
    rw [hid]
  · intro n hn
    unfold refTargetId
    rw [hn]
  · intro o
    cases o <;> rfl
  · intro c2
    rfl

/-- C7 (amended) witness on the dangling-symref store. -/
theorem C7_amended_witness :
    (follow_refs_to_objects_if_needed c7repo c7state).objs =
      (followRefsSlot c7repo c7state.refs.1 c7state.objs.1,
       followRefsSlot c7repo c7state.refs.2 c7state.objs.2) ∧
    refTargetId c7repo c7ref = refPeelToId c7repo peelSteps c7ref :=
  ⟨(C7_amended c7repo c7state c7ref).1,
   (C7_amended c7repo c7state c7ref).2.2.2.1 "refs/heads/main" rfl⟩

/-- C8 counterexample: the `reflog` callback on a fresh delegate panics
(`todo!`, modelled as the `todoUnimplemented` panic) — it does not
record an `UnsupportedFeature` diagnostic and return no result as the
claim states. -/
theorem C8_counterexample :
    reflog (initDelegate optsPreferObject) 0 = .panic .todoUnimplemented ∧
    reflog (initDelegate optsPreferObject) 0 ≠
      .fail { initDelegate optsPreferObject with err := [.unsupportedFeature "reflog"] } :=
  ⟨rfl, by decide⟩

/-- C8 (amended): every unimplemented callback — reflog lookup,
Nth-checked-out-branch, sibling-branch, ancestry traversal, regex find,
index-stage lookup — panics via `todo!` instead of recording a
diagnostic and returning no result; none of them ever silently
mis-resolves. -/
theorem C8_amended (s : DState) (q n bk tk stg : Nat) (rx pth : String) (neg : Bool) :
    reflog s q = .panic .todoUnimplemented ∧
    nth_checked_out_branch s n = .panic .todoUnimplemented ∧
    sibling_branch s bk = .panic .todoUnimplemented ∧
    traverse s tk = .panic .todoUnimplemented ∧
    find_regex s rx neg = .panic .todoUnimplemented ∧
    index_lookup s pth stg = .panic .todoUnimplemented :=
  ⟨rfl, rfl, rfl, rfl, rfl, rfl⟩

/-- C10: when the structural kind requires an endpoint whose slot holds
no object id at assembly (here a range whose second endpoint was never
populated), `into_rev_spec` panics via the `expect("set by parser")` in
`kind_to_spec` instead of returning an error value. -/
theorem C10_theorem (s : DState) (a : ObjectId) (_herr : s.err = [])
    (hobjs : s.objs = (some {a}, none))
    (hkind : s.kind = some SpecKind.rangeBetween) :
    into_rev_spec s = .panic .expectSetByParser := by
  unfold into_rev_spec zeroOrOne
  rw [hobjs, hkind]
  simp [collapseSlot, kind_to_spec, finSort]

/-- C10 witness at a concrete range state missing its second endpoint. -/
theorem C10_theorem_witness :
    c10state.err = [] ∧ c10state.objs = (some {5}, none) ∧
    c10state.kind = some SpecKind.rangeBetween ∧
    into_rev_spec c10state = .panic .expectSetByParser :=
  ⟨rfl, rfl, rfl, C10_theorem c10state 5 rfl rfl rfl⟩

/-- C2: for a prefix with at least one object-store match,
`disambiguate_prefix` follows the ref-preference policy: under
prefer-object, or under the tie-policy with a full-length prefix, it
stores the candidate set and succeeds without consulting the reference
store (the result is the same for every `refsFind`); under prefer-ref,
or the tie-policy with a shorter prefix, it attempts to resolve a
reference named like the prefix, adopting it and succeeding when found,
and otherwise keeps the object candidate set and succeeds. -/
theorem C2_theorem (repo : Repo) (s : DState) (p : Pfx) (candidates : Finset ObjectId)
    (hfound : repo.lookupPfx p = .found candidates)
    (hne : candidates ≠ ∅)
    (hobj : nth2 s.objs s.idx = none)
    (href : nth2 s.refs s.idx = none) :
    ((s.opts.refsHint = RefsHint.preferObject ∨
      (s.opts.refsHint = RefsHint.preferObjectOnFullLengthHexShaUseRefOtherwise ∧
        p.length = fullHexLen)) →
      ∀ f, disambiguatePfx { repo with refsFind := f } s p =
        .ok (storeCandidates (pfxMarked s p) candidates)) ∧
    ((s.opts.refsHint = RefsHint.preferRef ∨
      (s.opts.refsHint = RefsHint.preferObjectOnFullLengthHexShaUseRefOtherwise ∧
        p.length ≠ fullHexLen)) →
      (∀ r, repo.refsFind p = some r →
        disambiguatePfx repo s p =
          .ok { pfxMarked s p with refs := set2 s.refs s.idx (some r) }) ∧
      (repo.refsFind p = none →
        disambiguatePfx repo s p = .ok (storeCandidates (pfxMarked s p) candidates))) := by
  constructor
  · rintro (hpo | ⟨htie, hlen⟩) f
    · simp [disambiguatePfx, pfxMarked, hfound, hobj, hpo]
    · simp [disambiguatePfx, pfxMarked, hfound, hobj, htie, hne, hlen]
  · intro hcase
    constructor
    · intro r hr
      rcases hcase with hpr | ⟨htie, hlen⟩
      · simp [disambiguatePfx, refLookupArm, pfxMarked, hfound, hobj, href, hpr, hr]
      · simp [disambiguatePfx, refLookupArm, pfxMarked, hfound, hobj, href, htie, hne,
          hlen, hr]
    · intro hrnone
      rcases hcase with hpr | ⟨htie, hlen⟩
      · simp [disambiguatePfx, refLookupArm, pfxMarked, hfound, hobj, href, hpr, hrnone]
      · simp [disambiguatePfx, refLookupArm, pfxMarked, hfound, hobj, href, htie, hne,
          hlen, hrnone]

/-- C2 witness: prefer-object policy on a two-candidate prefix succeeds
with the stored candidate set for an arbitrary reference store. -/
theorem C2_theorem_witness :
    c1repo.lookupPfx "6" = .found ({100, 101} : Finset ObjectId) ∧
    ({100, 101} : Finset ObjectId) ≠ ∅ ∧
    nth2 (initDelegate optsPreferObject).objs (initDelegate optsPreferObject).idx = none ∧
    nth2 (initDelegate optsPreferObject).refs (initDelegate optsPreferObject).idx = none ∧
    disambiguatePfx { c1repo with refsFind := fun _ => none }
        (initDelegate optsPreferObject) "6" =
      .ok (storeCandidates (pfxMarked (initDelegate optsPreferObject) "6")
        ({100, 101} : Finset ObjectId)) :=
  ⟨by decide, by decide, rfl, rfl,
    (C2_theorem c1repo (initDelegate optsPreferObject) "6" {100, 101}
      (by decide) (by decide) rfl rfl).1 (Or.inl rfl) (fun _ => none)⟩

/-- C3: under the fail-on-tie policy, a prefix that both matches objects
and resolves as a reference keeps the reference in the endpoint slot,
records an `AmbiguousRefAndObject` diagnostic followed by the ambiguity
diagnostic over the candidate set, and the callback fails. -/
theorem C3_theorem (repo : Repo) (s : DState) (p : Pfx) (candidates : Finset ObjectId)
    (r : Reference)
    (hfound : repo.lookupPfx p = .found candidates)
    (hr : repo.refsFind p = some r)
    (hobj : nth2 s.objs s.idx = none)
    (href : nth2 s.refs s.idx = none)
    (hpolicy : s.opts.refsHint = RefsHint.fail) :
    disambiguatePfx repo s p =
      .fail { pfxMarked s p with
                refs := set2 s.refs s.idx (some r)
                err := s.err ++ [.ambiguousRefAndObject p r,
                                 Error.mkAmbiguous candidates p] } := by
  simp [disambiguatePfx, refLookupArm, pfxMarked, hfound, hr, hobj, href, hpolicy]

/-- C3 witness on a store where prefix `ab` is both an object and a ref. -/
theorem C3_theorem_witness :
    c3repo.lookupPfx "ab" = .found ({7} : Finset ObjectId) ∧
    c3repo.refsFind "ab" = some refAb ∧
    (initDelegate optsFail).opts.refsHint = RefsHint.fail ∧
    disambiguatePfx c3repo (initDelegate optsFail) "ab" =
      .fail { pfxMarked (initDelegate optsFail) "ab" with
                refs := set2 (initDelegate optsFail).refs (initDelegate optsFail).idx
                  (some refAb)
                err := (initDelegate optsFail).err ++
                  [.ambiguousRefAndObject "ab" refAb,
                   Error.mkAmbiguous {7} "ab"] } :=
  ⟨by decide, by decide, rfl,
    C3_theorem c3repo (initDelegate optsFail) "ab" {7} refAb
      (by decide) (by decide) rfl rfl rfl⟩

/-- C4: for a valid-object check, peel-to-kind or peel-to-path request
over a non-empty candidate set, the per-candidate outcomes are computed
without panicking; when every candidate fails, all per-candidate errors
are appended to the error list and the operation fails with the set left
untouched; when at least one candidate succeeds, the failing candidates
are removed, their diagnostics are still appended, replacements are
applied and the operation succeeds with a surviving set that is again
non-empty. -/
theorem C4_theorem (repo : Repo) (s : DState) (k : PeelTo) (c : Finset ObjectId)
    (hk : k ≠ PeelTo.recursiveTagObject)
    (hslot : nth2 (follow_refs_to_objects_if_needed repo (unset_disambiguate_call s)).objs
      s.idx = some c)
    (_hne : c.Nonempty) :
    collectOutcomes repo k (finSort c) = .val (outcomesOf repo k c) ∧
    (outcomesOf repo k c).map Prod.fst = finSort c ∧
    ((resErrors (outcomesOf repo k c)).length = c.card →
      peel_until repo s k =
        .fail { follow_refs_to_objects_if_needed repo (unset_disambiguate_call s) with
                  err := s.err ++ (resErrors (outcomesOf repo k c)).map Prod.snd }) ∧
    ((resErrors (outcomesOf repo k c)).length ≠ c.card →
      peel_until repo s k =
        .ok { follow_refs_to_objects_if_needed repo (unset_disambiguate_call s) with
                objs := set2 (follow_refs_to_objects_if_needed repo
                  (unset_disambiguate_call s)).objs s.idx (some (survivorsOf repo k c))
                err := s.err ++ (resErrors (outcomesOf repo k c)).map Prod.snd } ∧
      (survivorsOf repo k c).Nonempty) := by
  obtain ⟨rs, hrs, hfst⟩ := collectOutcomes_val repo k hk (finSort c)
  have houtc : outcomesOf repo k c = rs := by
    unfold outcomesOf
    rw [hrs]
  have hpe := peel_until_eq repo s k c hk hslot
  refine ⟨by rw [houtc]; exact hrs, by rw [houtc]; exact hfst, ?_, ?_⟩
  · intro hlen
    rw [hpe]
    unfold peelTail
    rw [if_pos hlen]
    rfl
  · intro hlen
    rw [hpe]
    unfold peelTail
    rw [if_neg hlen]
    refine ⟨rfl, ?_⟩
    have hle : (resErrors (outcomesOf repo k c)).length ≤ c.card := by
      rw [houtc]
      have hlen2 : rs.length = c.card := by
        have := congrArg List.length hfst
        rwa [List.length_map, finSort_length] at this
      exact hlen2 ▸ resErrors_length_le rs
    unfold survivorsOf
    cases hrep : resReplacements (outcomesOf repo k c) with
    | nil =>
      rw [applyRepl_nil]
      refine slotInv_eraseAll c _ ?_
      rw [List.length_map]
      omega
    | cons x tl => exact applyRepl_nonempty (x :: tl) _ (by simp)

/-- C4 witness: the mixed blob/commit candidate pair peeled to commit. -/
theorem C4_theorem_witness :
    (PeelTo.objectKind ObjKind.commit ≠ PeelTo.recursiveTagObject) ∧
    nth2 (follow_refs_to_objects_if_needed c1repo (unset_disambiguate_call c1s1)).objs
      c1s1.idx = some ({100, 101} : Finset ObjectId) ∧
    ({100, 101} : Finset ObjectId).Nonempty ∧
    collectOutcomes c1repo (PeelTo.objectKind ObjKind.commit)
        (finSort ({100, 101} : Finset ObjectId)) =
      .val (outcomesOf c1repo (PeelTo.objectKind ObjKind.commit)
        ({100, 101} : Finset ObjectId)) :=
  ⟨by decide, by decide, by decide,
    (C4_theorem c1repo c1s1 (PeelTo.objectKind ObjKind.commit) {100, 101}
      (by decide) (by decide) (by decide)).1⟩

/-- C9 (amended): a path lookup whose final component is missing fails
with a `PathNotFound` diagnostic naming the original object, the tree
that object was peeled to (the root tree of the lookup, not the
intermediate subtree), and the full path. -/
theorem C9_theorem (repo : Repo) (s : DState) (obj t : ObjectId) (comps : List String)
    (entries : List (String × ObjectId))
    (hslot : nth2 (follow_refs_to_objects_if_needed repo (unset_disambiguate_call s)).objs
      s.idx = some ({obj} : Finset ObjectId))
    (hpeel : peel repo obj ObjKind.tree = .ok t)
    (hfind : repo.findObject t = some (.tree entries))
    (hmiss : treeLookupPath repo entries comps = none) :
    peel_until repo s (.path comps) =
      .fail { follow_refs_to_objects_if_needed repo (unset_disambiguate_call s) with
                err := s.err ++ [.pathNotFound comps obj t] } := by
  have hlp : lookupPath repo comps obj = .val (.error (.pathNotFound comps obj t)) := by
    simp [lookupPath, hpeel, hfind, hmiss]
  have hco : collectOutcomes repo (.path comps) (finSort ({obj} : Finset ObjectId)) =
      .val [(obj, .error (.pathNotFound comps obj t))] := by
    have hfs : finSort ({obj} : Finset ObjectId) = [obj] := rfl
    rw [hfs]
    simp [collectOutcomes, peelOutcome, hlp]
  have hout : outcomesOf repo (.path comps) ({obj} : Finset ObjectId) =
      [(obj, .error (.pathNotFound comps obj t))] := by
    unfold outcomesOf
    rw [hco]
  rw [peel_until_eq repo s (.path comps) {obj} (by simp) hslot, hout]
  simp only [peelTail, resErrors, resReplacements]
  rfl

/-- C9 counterexample: for the lookup "tree 10 : a/b/c" where subtree
a/b exists (id 30) but entry c does not, the diagnostic names the root
tree id 10 (the tree the object was peeled to) rather than a/b's id 30,
refuting the claim that it names tree "a/b"'s id. -/
theorem C9_counterexample :
    peel_until c9repo c9state (.path ["a", "b", "c"]) =
      .fail { c9state with err := [.pathNotFound ["a", "b", "c"] 10 10] } ∧
    treeLookupPath c9repo [("a", 20)] ["a", "b"] = some 30 ∧
    (10 : ObjectId) ≠ 30 :=
  ⟨by decide, by decide, by decide⟩

/-- C9 (amended) witness on the concrete a/b/c store. -/
theorem C9_theorem_witness :
    peel c9repo 10 ObjKind.tree = .ok 10 ∧
    c9repo.findObject 10 = some (.tree [("a", 20)]) ∧
    treeLookupPath c9repo [("a", 20)] ["a", "b", "c"] = none ∧
    peel_until c9repo c9state (.path ["a", "b", "c"]) =
      .fail { follow_refs_to_objects_if_needed c9repo (unset_disambiguate_call c9state) with
                err := c9state.err ++ [.pathNotFound ["a", "b", "c"] 10 10] } :=
  ⟨by decide, by decide, by decide,
    C9_theorem c9repo c9state 10 10 ["a", "b", "c"] [("a", 20)]
      (by decide) (by decide) (by decide) (by decide)⟩

end RevSpecParse
